import Mathlib

/-!
Verification of the meet-transcript-whisper alignment/segmentation engine and
job lifecycle, via a shallow embedding of the Python sources into Lean.
Times (seconds) are modelled as rationals; Python `None` as `Option.none`;
Python truthiness of strings/lists/options is modelled explicitly.
-/

/-- A single word with timing information (src/core/models.py, `Word`). -/
structure Word where
  text : String
  start : ℚ
  «end» : ℚ
  confidence : Option ℚ := none
  speaker : Option String := none
deriving DecidableEq, Repr

/-- A speaker turn from diarization (src/core/models.py, `SpeakerSegment`). -/
structure SpeakerSegment where
  speaker : String
  start : ℚ
  «end» : ℚ
deriving DecidableEq, Repr

/-- A transcript segment with speaker attribution
(src/core/models.py, `TranscriptSegment`). -/
structure TranscriptSegment where
  speaker : String
  start : ℚ
  «end» : ℚ
  text : String
  words : Option (List Word) := none
deriving DecidableEq, Repr

/-- Python truthiness of an optional string (`None` and `""` are falsy). -/
def pyTruthyStr : Option String → Bool
  | none => false
  | some "" => false
  | some _ => true

/-- Python `s or d` for an optional string `s` and a string default `d`,
as in `current_speaker or "UNKNOWN"`. -/
def pyOr (s : Option String) (d : String) : String :=
  match s with
  | none => d
  | some t => if t = "" then d else t

/-- Python truthiness of an optional list (`None` and `[]` are falsy). -/
def pyTruthyList {α : Type} : Option (List α) → Bool
  | none => false
  | some [] => false
  | some (_ :: _) => true

/-- `align_words_with_speakers` (src/services/pipeline.py, lines 27-53).
If there are no speaker segments every word is labelled `SPEAKER_00`;
otherwise each word is labelled with the speaker of the first segment
containing its midpoint, or `UNKNOWN` when none does. -/
def align_words_with_speakers (words : List Word)
    (speaker_segments : List SpeakerSegment) : List Word :=
  if speaker_segments = [] then
    words.map (fun w => { w with speaker := some "SPEAKER_00" })
  else
    words.map (fun w =>
      let word_mid := (w.start + w.«end») / 2
      let speaker :=
        ((speaker_segments.find?
            (fun seg => decide (seg.start ≤ word_mid ∧ word_mid ≤ seg.«end»))).map
          SpeakerSegment.speaker).getD "UNKNOWN"
      { w with speaker := some speaker })

/-- Spec-side description: the speaker of the first turn, in list order,
whose interval contains `mid`; `UNKNOWN` when no turn contains it. -/
def firstTurnSpeaker : List SpeakerSegment → ℚ → String
  | [], _ => "UNKNOWN"
  | t :: ts, mid =>
      if t.start ≤ mid ∧ mid ≤ t.«end» then t.speaker else firstTurnSpeaker ts mid

/-- The midpoint of a word's time interval. -/
def Word.mid (w : Word) : ℚ := (w.start + w.«end») / 2

theorem find_speaker_eq_firstTurnSpeaker (ts : List SpeakerSegment) (mid : ℚ) :
    ((ts.find? (fun seg => decide (seg.start ≤ mid ∧ mid ≤ seg.«end»))).map
        SpeakerSegment.speaker).getD "UNKNOWN" = firstTurnSpeaker ts mid := by
  induction ts with
  | nil => rfl
  | cons t ts ih =>
      by_cases h : t.start ≤ mid ∧ mid ≤ t.«end»
      · rw [List.find?_cons_of_pos _ (by simpa using h)]
        simp [firstTurnSpeaker, h]
      · rw [List.find?_cons_of_neg _ (by simpa using h)]
        rw [firstTurnSpeaker, if_neg h]
        exact ih

/-- Claim C1: if the turn list is empty, `align_words_with_speakers` sets every
word's speaker to the sentinel `SPEAKER_00`; otherwise each word independently
gets the speaker of the first turn (in turn-list order) whose interval contains
the word's midpoint `(start + end) / 2`, and `UNKNOWN` when no turn contains it. -/
theorem align_empty_sentinel_else_first_match (words : List Word)
    (turns : List SpeakerSegment) :
    (turns = [] →
      align_words_with_speakers words turns
        = words.map (fun w => { w with speaker := some "SPEAKER_00" })) ∧
    (turns ≠ [] →
      align_words_with_speakers words turns
        = words.map (fun w => { w with speaker := some (firstTurnSpeaker turns w.mid) })) := by
  constructor
  · intro h
    simp [align_words_with_speakers, h]
  · intro h
    simp only [align_words_with_speakers, if_neg h]
    refine List.map_congr_left ?_
    intro w _
    simp only [find_speaker_eq_firstTurnSpeaker, Word.mid]

/-- Concrete instantiation of `align_empty_sentinel_else_first_match`:
one word, one turn containing the word's midpoint. -/
theorem align_empty_sentinel_else_first_match_witness :
    align_words_with_speakers
        [{ text := "hi", start := 0, «end» := 1 }]
        [{ speaker := "SPEAKER_01", start := 0, «end» := 2 }]
      = [{ text := "hi", start := 0, «end» := 1,
           speaker := some "SPEAKER_01" }] := by
  have h := (align_empty_sentinel_else_first_match
      [{ text := "hi", start := 0, «end» := 1 }]
      [{ speaker := "SPEAKER_01", start := 0, «end» := 2 }]).2 (by simp)
  rw [h]
  norm_num [firstTurnSpeaker, Word.mid]

/-- `_create_segment` (src/services/pipeline.py, lines 87-96): build one
transcript segment from a (nonempty, in the source's usage) run of words. -/
def _create_segment (words : List Word) (speaker : String) : TranscriptSegment :=
  { speaker := speaker
    start := ((words.head?).map Word.start).getD 0
    «end» := ((words.getLast?).map Word.«end»).getD 0
    text := String.intercalate " " (words.map Word.text)
    words := some words }

/-- The loop of `merge_words_into_segments` (src/services/pipeline.py,
lines 66-82), with state (remaining words, current_speaker, current_words,
segments built so far).  Python list `append` is modelled by appending on
the right. -/
def mergeLoop : List Word → Option String → List Word → List TranscriptSegment →
    List TranscriptSegment
  | [], current_speaker, current_words, segments =>
      if current_words = [] then segments
      else segments ++ [_create_segment current_words (pyOr current_speaker "UNKNOWN")]
  | w :: rest, current_speaker, current_words, segments =>
      if w.speaker ≠ current_speaker then
        let flushed :=
          if current_words = [] then segments
          else segments ++ [_create_segment current_words (pyOr current_speaker "UNKNOWN")]
        mergeLoop rest w.speaker [w] flushed
      else
        mergeLoop rest current_speaker (current_words ++ [w]) segments

/-- `merge_words_into_segments` (src/services/pipeline.py, lines 56-84). -/
def merge_words_into_segments (words : List Word) : List TranscriptSegment :=
  if words = [] then [] else mergeLoop words none [] []

/-- Spec-side: longest prefix of words whose speaker equals `s`. -/
def takeRun (s : Option String) : List Word → List Word
  | [] => []
  | w :: ws => if w.speaker = s then w :: takeRun s ws else []

/-- Spec-side: remainder after `takeRun`. -/
def dropRun (s : Option String) : List Word → List Word
  | [] => []
  | w :: ws => if w.speaker = s then dropRun s ws else w :: ws

theorem takeRun_append_dropRun (s : Option String) (ws : List Word) :
    takeRun s ws ++ dropRun s ws = ws := by
  induction ws with
  | nil => rfl
  | cons w ws ih =>
      by_cases h : w.speaker = s <;> simp [takeRun, dropRun, h, ih]

theorem dropRun_length_le (s : Option String) (ws : List Word) :
    (dropRun s ws).length ≤ ws.length := by
  induction ws with
  | nil => simp [dropRun]
  | cons w ws ih =>
      by_cases h : w.speaker = s <;> simp [dropRun, h]
      omega

/-- Spec-side: the maximal contiguous equal-speaker runs of a word list,
in input order. -/
def runs : List Word → List (List Word)
  | [] => []
  | w :: ws => (w :: takeRun w.speaker ws) :: runs (dropRun w.speaker ws)
termination_by ws => ws.length
decreasing_by
  simp only [List.length_cons]
  exact Nat.lt_succ_of_le (dropRun_length_le _ _)

/-- The common speaker label of a run (its head's label). -/
def runSpeaker : List Word → Option String
  | [] => none
  | w :: _ => w.speaker

theorem mem_takeRun_speaker (s : Option String) (ws : List Word) :
    ∀ w ∈ takeRun s ws, w.speaker = s := by
  induction ws with
  | nil => simp [takeRun]
  | cons v ws ih =>
      by_cases h : v.speaker = s
      · intro w hw
        rw [takeRun, if_pos h] at hw
        rcases List.mem_cons.mp hw with rfl | hw
        · exact h
        · exact ih w hw
      · intro w hw
        rw [takeRun, if_neg h] at hw
        simp at hw

theorem runs_join (ws : List Word) : (runs ws).flatten = ws := by
  induction ws using runs.induct with
  | case1 => simp [runs]
  | case2 w ws ih =>
      rw [runs]
      simp only [List.flatten_cons, List.cons_append]
      rw [ih, takeRun_append_dropRun]

/-- The segment the source builds from one run (its speaker defaulted through
Python `or`, fields as in `_create_segment`). -/
def segOfRun (r : List Word) : TranscriptSegment :=
  _create_segment r (pyOr (runSpeaker r) "UNKNOWN")

theorem runSpeaker_of_const {cs : Option String} {cw : List Word} (hne : cw ≠ [])
    (hconst : ∀ w ∈ cw, w.speaker = cs) : runSpeaker cw = cs := by
  cases cw with
  | nil => exact absurd rfl hne
  | cons v cw => exact hconst v (List.mem_cons_self v cw)

theorem mergeLoop_eq (ws : List Word) :
    ∀ (cs : Option String) (cw : List Word) (segs : List TranscriptSegment),
      cw ≠ [] → (∀ w ∈ cw, w.speaker = cs) →
      mergeLoop ws cs cw segs
        = segs ++ ((cw ++ takeRun cs ws) :: runs (dropRun cs ws)).map segOfRun := by
  induction ws with
  | nil =>
      intro cs cw segs hne hconst
      rw [mergeLoop, if_neg hne]
      simp only [takeRun, dropRun, runs, List.append_nil, List.map_cons, List.map_nil]
      rw [segOfRun, runSpeaker_of_const hne hconst]
  | cons w rest ih =>
      intro cs cw segs hne hconst
      by_cases h : w.speaker = cs
      · rw [mergeLoop, if_neg (by simpa using h)]
        rw [ih cs (cw ++ [w]) segs (by simp)
          (by intro v hv
              rcases List.mem_append.mp hv with hv | hv
              · exact hconst v hv
              · rw [List.mem_singleton.mp hv]; exact h)]
        rw [takeRun, if_pos h, dropRun, if_pos h]
        simp [List.append_assoc]
      · rw [mergeLoop, if_pos (by simpa using h), if_neg hne]
        rw [ih w.speaker [w] _ (by simp) (by simp)]
        rw [takeRun, if_neg h, dropRun, if_neg h, runs]
        simp only [List.append_nil, List.map_cons, List.singleton_append,
          List.append_assoc, List.cons_append, List.nil_append]
        congr 2
        rw [segOfRun, runSpeaker_of_const hne hconst]

theorem mergeLoop_start (w : Word) (rest : List Word) :
    mergeLoop (w :: rest) none [] [] = mergeLoop rest w.speaker [w] [] := by
  by_cases h : w.speaker = none
  · rw [mergeLoop, if_neg (by simpa using h), h]
    rfl
  · rw [mergeLoop, if_pos (by simpa using h)]
    simp

theorem merge_eq_map_runs (ws : List Word) :
    merge_words_into_segments ws = (runs ws).map segOfRun := by
  cases ws with
  | nil => simp [merge_words_into_segments, runs]
  | cons w rest =>
      rw [merge_words_into_segments, if_neg (by simp), mergeLoop_start]
      rw [mergeLoop_eq rest w.speaker [w] [] (by simp) (by simp)]
      rw [runs]
      simp

theorem runs_ne_nil (ws : List Word) : ∀ r ∈ runs ws, r ≠ [] := by
  induction ws using runs.induct with
  | case1 => simp [runs]
  | case2 w ws ih =>
      rw [runs]
      intro r hr
      rcases List.mem_cons.mp hr with rfl | hr
      · simp
      · exact ih r hr

theorem runs_speaker_const (ws : List Word) :
    ∀ r ∈ runs ws, ∀ w ∈ r, w.speaker = runSpeaker r := by
  induction ws using runs.induct with
  | case1 => simp [runs]
  | case2 w ws ih =>
      rw [runs]
      intro r hr
      rcases List.mem_cons.mp hr with rfl | hr
      · intro v hv
        rcases List.mem_cons.mp hv with rfl | hv
        · rfl
        · rw [runSpeaker]
          exact mem_takeRun_speaker _ _ v hv
      · exact ih r hr

theorem runSpeaker_dropRun_ne (s : Option String) (ws : List Word) :
    dropRun s ws = [] ∨ runSpeaker (dropRun s ws) ≠ s := by
  induction ws with
  | nil => left; rfl
  | cons w ws ih =>
      by_cases h : w.speaker = s
      · rw [dropRun, if_pos h]; exact ih
      · right
        rw [dropRun, if_neg h, runSpeaker]
        exact h

theorem runs_chain_ne (ws : List Word) :
    List.Chain' (fun r1 r2 => runSpeaker r1 ≠ runSpeaker r2) (runs ws) := by
  induction ws using runs.induct with
  | case1 => simp [runs]
  | case2 w ws ih =>
      rw [runs]
      rw [List.chain'_cons']
      refine ⟨?_, ih⟩
      intro r2 hr2
      rcases runSpeaker_dropRun_ne w.speaker ws with hnil | hne
      · rw [hnil] at hr2
        simp [runs] at hr2
      · cases hd : dropRun w.speaker ws with
        | nil => rw [hd] at hr2; simp [runs] at hr2
        | cons v rest =>
            rw [hd] at hr2 hne
            rw [runs] at hr2
            simp only [List.head?_cons, Option.mem_def, Option.some.injEq] at hr2
            subst hr2
            simp only [runSpeaker] at hne ⊢
            exact fun hcontra => hne hcontra.symm

/-- Claim C2: `merge_words_into_segments` produces exactly one segment per
maximal contiguous run of equal-speaker words, in input order; each segment's
start is the run's first word's start, its end the run's last word's end, its
text the run's texts joined with single spaces, and its words field the run's
words in order; the empty list merges to the empty list.  The last three
conjuncts state that `runs` is exactly the maximal-run decomposition:
it partitions the input in order, every run is nonempty with a constant
speaker, and adjacent runs carry different speakers. -/
theorem merge_one_segment_per_run (ws : List Word) :
    merge_words_into_segments [] = []
  ∧ merge_words_into_segments ws
      = (runs ws).map (fun r =>
          { speaker := pyOr (runSpeaker r) "UNKNOWN"
            start := ((r.head?).map Word.start).getD 0
            «end» := ((r.getLast?).map Word.«end»).getD 0
            text := String.intercalate " " (r.map Word.text)
            words := some r })
  ∧ (runs ws).flatten = ws
  ∧ (∀ r ∈ runs ws, r ≠ [] ∧ ∀ w ∈ r, w.speaker = runSpeaker r)
  ∧ List.Chain' (fun r1 r2 => runSpeaker r1 ≠ runSpeaker r2) (runs ws) := by
  refine ⟨by simp [merge_words_into_segments], ?_, runs_join ws, ?_, runs_chain_ne ws⟩
  · rw [merge_eq_map_runs]
    rfl
  · intro r hr
    exact ⟨runs_ne_nil ws r hr, runs_speaker_const ws r hr⟩

theorem takeRun_append_of_const {s : Option String} {t rest : List Word}
    (ht : ∀ w ∈ t, w.speaker = s) :
    takeRun s (t ++ rest) = t ++ takeRun s rest := by
  induction t with
  | nil => simp
  | cons v t ih =>
      rw [List.cons_append, takeRun, if_pos (ht v (List.mem_cons_self v t))]
      rw [ih (fun w hw => ht w (List.mem_cons_of_mem v hw))]
      rfl

theorem dropRun_append_of_const {s : Option String} {t rest : List Word}
    (ht : ∀ w ∈ t, w.speaker = s) :
    dropRun s (t ++ rest) = dropRun s rest := by
  induction t with
  | nil => simp
  | cons v t ih =>
      rw [List.cons_append, dropRun, if_pos (ht v (List.mem_cons_self v t))]
      exact ih (fun w hw => ht w (List.mem_cons_of_mem v hw))

theorem runs_append_two (r1 r2 : List Word) (s1 s2 : Option String)
    (h1 : r1 ≠ []) (h2 : r2 ≠ []) (hs : s1 ≠ s2)
    (hc1 : ∀ w ∈ r1, w.speaker = s1) (hc2 : ∀ w ∈ r2, w.speaker = s2) :
    runs (r1 ++ r2) = [r1, r2] := by
  cases r1 with
  | nil => exact absurd rfl h1
  | cons w t =>
      cases r2 with
      | nil => exact absurd rfl h2
      | cons v t2 =>
          have hw : w.speaker = s1 := hc1 w (List.mem_cons_self w t)
          have hv : v.speaker = s2 := hc2 v (List.mem_cons_self v t2)
          have ht : ∀ u ∈ t, u.speaker = s1 :=
            fun u hu => hc1 u (List.mem_cons_of_mem w hu)
          have ht2 : ∀ u ∈ t2, u.speaker = s2 :=
            fun u hu => hc2 u (List.mem_cons_of_mem v hu)
          rw [List.cons_append, runs, hw]
          rw [takeRun_append_of_const ht, dropRun_append_of_const ht]
          rw [takeRun, if_neg (by rw [hv]; exact fun h => hs h.symm)]
          rw [dropRun, if_neg (by rw [hv]; exact fun h => hs h.symm)]
          rw [runs, hv]
          have htake2 : takeRun s2 t2 = t2 := by
            have := @takeRun_append_of_const s2 t2 [] ht2
            simpa [takeRun] using this
          have hdrop2 : dropRun s2 t2 = [] := by
            have := @dropRun_append_of_const s2 t2 [] ht2
            simpa [dropRun] using this
          rw [htake2, hdrop2, runs]
          simp

/-- Claim C10: a maximal run of words whose speaker is unset (`none`) becomes
one segment whose speaker field is the string `UNKNOWN` (the field is a plain
string, never `none`); and such a run forms a segment boundary distinct from an
adjacent run of words explicitly labelled `UNKNOWN`: the two runs yield two
separate segments, both labelled `UNKNOWN`. -/
theorem merge_unlabeled_runs_unknown (ws r1 r2 : List Word)
    (h1 : r1 ≠ []) (h2 : r2 ≠ [])
    (ha : ∀ w ∈ r1, w.speaker = none)
    (hb : ∀ w ∈ r2, w.speaker = some "UNKNOWN") :
    (∀ r ∈ runs ws, (∀ w ∈ r, w.speaker = none) →
        ∃ seg ∈ merge_words_into_segments ws,
          seg.words = some r ∧ seg.speaker = "UNKNOWN")
  ∧ merge_words_into_segments (r1 ++ r2)
      = [_create_segment r1 "UNKNOWN", _create_segment r2 "UNKNOWN"] := by
  constructor
  · intro r hr hnone
    refine ⟨segOfRun r, ?_, ?_, ?_⟩
    · rw [merge_eq_map_runs]
      exact List.mem_map_of_mem segOfRun hr
    · rfl
    · rw [segOfRun, _create_segment]
      cases r with
      | nil => rfl
      | cons w t =>
          rw [runSpeaker, hnone w (List.mem_cons_self w t)]
          rfl
  · rw [merge_eq_map_runs]
    rw [runs_append_two r1 r2 none (some "UNKNOWN") h1 h2 (by simp) ha hb]
    have hr1 : runSpeaker r1 = none := by
      cases r1 with
      | nil => rfl
      | cons w t => exact ha w (List.mem_cons_self w t)
    have hr2 : runSpeaker r2 = some "UNKNOWN" := by
      cases r2 with
      | nil => exact absurd rfl h2
      | cons w t => exact hb w (List.mem_cons_self w t)
    simp only [List.map_cons, List.map_nil, segOfRun, hr1, hr2, pyOr]
    norm_num

/-- Concrete instantiation of `merge_unlabeled_runs_unknown`: one unlabeled
word followed by one explicitly `UNKNOWN`-labelled word yields two distinct
segments, both labelled `UNKNOWN`. -/
theorem merge_unlabeled_runs_unknown_witness :
    merge_words_into_segments
        [{ text := "a", start := 0, «end» := 1 },
         { text := "b", start := 1, «end» := 2, speaker := some "UNKNOWN" }]
      = [_create_segment [{ text := "a", start := 0, «end» := 1 }] "UNKNOWN",
         _create_segment
           [{ text := "b", start := 1, «end» := 2,
              speaker := some "UNKNOWN" }] "UNKNOWN"] :=
  (merge_unlabeled_runs_unknown []
      [{ text := "a", start := 0, «end» := 1 }]
      [{ text := "b", start := 1, «end» := 2, speaker := some "UNKNOWN" }]
      (by simp) (by simp) (by simp) (by simp)).2

/-- The word dictionary produced inside `format_json`
(src/utils/formatters.py, lines 118-125): keys text/start/end/confidence. -/
structure WordDict where
  text : String
  start : ℚ
  «end» : ℚ
  confidence : Option ℚ
deriving DecidableEq, Repr

/-- The per-segment dictionary produced by `format_json`
(src/utils/formatters.py, lines 112-130). -/
structure SegmentDict where
  speaker : String
  start : ℚ
  «end» : ℚ
  text : String
  words : Option (List WordDict)
deriving DecidableEq, Repr

/-- The top-level dictionary returned by `format_json`
(src/utils/formatters.py, lines 107-133). -/
structure JsonResult where
  duration_seconds : ℚ
  language : Option String
  speakers : List String
  segments : List SegmentDict
deriving DecidableEq, Repr

/-- The word dictionary comprehension in `format_json`. -/
def wordToDict (w : Word) : WordDict :=
  { text := w.text, start := w.start, «end» := w.«end», confidence := w.confidence }

/-- The per-segment dictionary in `format_json`: the `words` entry is the
mapped word list `if seg.words else None` — Python truthiness, so both a
missing word list and an empty one serialize to `None`. -/
def segmentToDict (seg : TranscriptSegment) : SegmentDict :=
  { speaker := seg.speaker
    start := seg.start
    «end» := seg.«end»
    text := seg.text
    words :=
      match seg.words with
      | some (w :: ws) => some ((w :: ws).map wordToDict)
      | _ => none }

/-- `format_json` (src/utils/formatters.py, lines 89-133). -/
def format_json (segments : List TranscriptSegment) (duration_seconds : ℚ)
    (language : Option String) (speakers : List String) : JsonResult :=
  { duration_seconds := duration_seconds
    language := language
    speakers := speakers
    segments := segments.map segmentToDict }

/-- `Word(**w)` as used by the download endpoint: the dict carries no
`speaker` key, so the reconstructed word's speaker is `None`. -/
def dictToWord (w : WordDict) : Word :=
  { text := w.text, start := w.start, «end» := w.«end»,
    confidence := w.confidence, speaker := none }

/-- The segment reconstruction in `download_transcription`
(src/api/routes.py, lines 222-235): `words` is rebuilt only when
`seg_data.get("words")` is truthy, i.e. present and nonempty. -/
def parseSegment (d : SegmentDict) : TranscriptSegment :=
  { speaker := d.speaker
    start := d.start
    «end» := d.«end»
    text := d.text
    words :=
      match d.words with
      | some (w :: ws) => some ((w :: ws).map dictToWord)
      | _ => none }

/-- Claim C4: rendering a segment list with `format_json` and parsing the
resulting segment dictionaries back (as the download endpoint does)
reconstructs segments whose speaker, start, end and text fields are
identical to the originals. -/
theorem format_json_parse_round_trip (segments : List TranscriptSegment)
    (duration_seconds : ℚ) (language : Option String) (speakers : List String) :
    ((format_json segments duration_seconds language speakers).segments.map
        parseSegment).map
      (fun s => (s.speaker, s.start, s.«end», s.text))
      = segments.map (fun s => (s.speaker, s.start, s.«end», s.text)) := by
  rw [format_json]
  simp only [List.map_map]
  refine List.map_congr_left ?_
  intro s _
  rfl

/-- Claim C5 counterexample: a segment whose word list exists but is empty
serializes its words entry as `None`, not as an empty list — the
null-versus-empty-list distinction is collapsed by Python truthiness. -/
theorem format_json_empty_words_serializes_null :
    (segmentToDict
        { speaker := "SPEAKER_00", start := 0, «end» := 1,
          text := "hi", words := some [] }).words = none
  ∧ (segmentToDict
        { speaker := "SPEAKER_00", start := 0, «end» := 1,
          text := "hi", words := some [] }).words ≠ some [] := by
  exact ⟨rfl, by simp [segmentToDict]⟩

/-- Claim C5 (amended): in `format_json` the serialized words entry of a
segment is null exactly when the segment carries no word-level data or its
word list is empty; a nonempty word list serializes to the corresponding
nonempty list of word dictionaries. -/
theorem format_json_words_null_iff (seg : TranscriptSegment) :
    ((segmentToDict seg).words = none ↔ seg.words = none ∨ seg.words = some [])
  ∧ (∀ w ws, seg.words = some (w :: ws) →
      (segmentToDict seg).words = some ((w :: ws).map wordToDict)) := by
  constructor
  · rw [segmentToDict]
    match h : seg.words with
    | none => simp
    | some [] => simp
    | some (w :: ws) => simp
  · intro w ws h
    rw [segmentToDict, h]

theorem align_nil (words : List Word) :
    align_words_with_speakers words []
      = words.map (fun w => { w with speaker := some "SPEAKER_00" }) := by
  simp [align_words_with_speakers]

/-- The transcription engine's output as consumed by the pipeline
(src/services/pipeline.py, lines 161-167): full text, detected language,
and the word list. -/
structure TranscriptionOutput where
  text : String
  language : Option String
  words : List Word
deriving Repr

/-- `PipelineResult` (src/services/pipeline.py, lines 15-24). -/
structure PipelineResult where
  text : String
  language : Option String
  duration_seconds : ℚ
  speakers : List String
  segments : List TranscriptSegment
  words : List Word
deriving Repr

/-- Python `sorted(set(labels))`: duplicates removed, sorted ascending. -/
def sortedSpeakers (labels : List String) : List String :=
  labels.dedup.mergeSort (fun a b => decide (a ≤ b))

/-- `TranscriptionPipeline.process` (src/services/pipeline.py, lines 114-194),
with the two external engines modelled by their outcomes: a raise becomes
`Except.error`.  Diarization errors are caught and replaced by the empty turn
list; transcription errors propagate. -/
def TranscriptionPipeline.process (duration : ℚ) (enable_diarization : Bool)
    (diarizeOutcome : Except String (List SpeakerSegment))
    (transcribeOutcome : Except String TranscriptionOutput) :
    Except String PipelineResult :=
  let speaker_segments : List SpeakerSegment :=
    if enable_diarization then
      match diarizeOutcome with
      | Except.ok segs => segs
      | Except.error _ => []
    else []
  match transcribeOutcome with
  | Except.error e => Except.error e
  | Except.ok tr =>
      let aligned_words := align_words_with_speakers tr.words speaker_segments
      let segments := merge_words_into_segments aligned_words
      Except.ok
        { text := tr.text
          language := tr.language
          duration_seconds := duration
          speakers := sortedSpeakers (segments.map TranscriptSegment.speaker)
          segments := segments
          words := aligned_words }

/-- Claim C3: the two inference stages have asymmetric error policies.  When
the diarization engine raises, the pipeline continues with an empty turn list,
all words get the single-speaker fallback label `SPEAKER_00`, and a
`PipelineResult` is still produced; when the transcription engine raises, the
error propagates and no `PipelineResult` is produced. -/
theorem pipeline_error_policy_asymmetry (duration : ℚ) (diarErr : String)
    (tr : TranscriptionOutput) (transcribeErr : String)
    (enable_diarization : Bool)
    (diarizeOutcome : Except String (List SpeakerSegment)) :
    (∃ r : PipelineResult,
        TranscriptionPipeline.process duration true (Except.error diarErr)
            (Except.ok tr) = Except.ok r
      ∧ r.words = tr.words.map (fun w => { w with speaker := some "SPEAKER_00" })
      ∧ r.segments = merge_words_into_segments r.words)
  ∧ TranscriptionPipeline.process duration enable_diarization diarizeOutcome
      (Except.error transcribeErr) = Except.error transcribeErr := by
  constructor
  · refine ⟨_, rfl, ?_, rfl⟩
    exact align_nil tr.words
  · rfl


/-- Python float `a % b`: `a - b * floor(a / b)` (result has the sign of `b`). -/
def pymod (a b : ℚ) : ℚ := a - b * ⌊a / b⌋

/-- Python `int(x)`: truncation toward zero. -/
def pyint (x : ℚ) : ℤ := if 0 ≤ x then ⌊x⌋ else -⌊-x⌋

/-- Left-pad a string with `'0'` characters to a minimum width. -/
def padZeros (width : Nat) (s : String) : String :=
  if s.length < width then String.mk (List.replicate (width - s.length) '0') ++ s
  else s

/-- Python `f"{n:0Wd}"`: zero-padded decimal rendering of minimum width `W`
(a minus sign, when present, precedes the zeros). -/
def pyFormat0d (width : Nat) (n : ℤ) : String :=
  if n < 0 then "-" ++ padZeros (width - 1) (toString (-n))
  else padZeros width (toString n)

/-- `_format_timestamp_srt` (src/utils/formatters.py, lines 6-12):
`int(seconds // 3600)`, `int((seconds % 3600) // 60)`, `int(seconds % 60)`,
`int((seconds % 1) * 1000)`, rendered as `HH:MM:SS,mmm`. -/
def _format_timestamp_srt (seconds : ℚ) : String :=
  pyFormat0d 2 (pyint (⌊seconds / 3600⌋ : ℤ)) ++ ":"
    ++ pyFormat0d 2 (pyint (⌊(pymod seconds 3600) / 60⌋ : ℤ)) ++ ":"
    ++ pyFormat0d 2 (pyint (pymod seconds 60)) ++ ","
    ++ pyFormat0d 3 (pyint ((pymod seconds 1) * 1000))

/-- `_format_timestamp_vtt` (src/utils/formatters.py, lines 15-21): identical
components, dot millisecond separator. -/
def _format_timestamp_vtt (seconds : ℚ) : String :=
  pyFormat0d 2 (pyint (⌊seconds / 3600⌋ : ℤ)) ++ ":"
    ++ pyFormat0d 2 (pyint (⌊(pymod seconds 3600) / 60⌋ : ℤ)) ++ ":"
    ++ pyFormat0d 2 (pyint (pymod seconds 60)) ++ "."
    ++ pyFormat0d 3 (pyint ((pymod seconds 1) * 1000))

/-- `format_srt` (src/utils/formatters.py, lines 24-55): per segment a 1-based
sequence number, a timestamp line, the (optionally speaker-prefixed) text, and
a blank separator line, all joined by newlines. -/
def format_srt (segments : List TranscriptSegment)
    (include_speaker : Bool := true) : String :=
  String.intercalate "\n"
    ((segments.enum.map (fun p =>
      [toString (p.1 + 1),
       _format_timestamp_srt p.2.start ++ " --> " ++ _format_timestamp_srt p.2.«end»,
       if include_speaker then "[" ++ p.2.speaker ++ "] " ++ p.2.text else p.2.text,
       ""])).flatten)

theorem pyint_intCast (k : ℤ) : pyint (k : ℚ) = k := by
  rw [pyint]
  by_cases h : (0:ℚ) ≤ (k:ℚ)
  · rw [if_pos h, Int.floor_intCast]
  · rw [if_neg h]
    rw [show (-(k:ℚ)) = ((-k : ℤ) : ℚ) from by push_cast; ring, Int.floor_intCast]
    ring

theorem pymod_nonneg_floor (s : ℚ) (d : ℕ) (hs : 0 ≤ s) (hd : 0 < d) :
    0 ≤ pymod s (d:ℚ) ∧ ⌊pymod s (d:ℚ)⌋ = ((⌊s⌋₊ % d : ℕ) : ℤ) := by
  have hdq : (0:ℚ) < (d:ℚ) := by exact_mod_cast hd
  have h1 : 0 ≤ pymod s (d:ℚ) := by
    have h2 := Int.sub_floor_div_mul_nonneg s hdq
    rw [pymod]
    linarith
  refine ⟨h1, ?_⟩
  have hq : ⌊s / (d:ℚ)⌋ = ((⌊s⌋₊ / d : ℕ) : ℤ) := by
    rw [← Int.natCast_floor_eq_floor (show (0:ℚ) ≤ s / (d:ℚ) from by positivity)]
    rw [Nat.floor_div_nat]
  have hfloor : ⌊pymod s (d:ℚ)⌋ = ⌊s⌋ - (d:ℤ) * ⌊s / (d:ℚ)⌋ := by
    rw [pymod]
    rw [show (d:ℚ) * (⌊s / (d:ℚ)⌋:ℚ) = (((d:ℤ) * ⌊s / (d:ℚ)⌋ : ℤ) : ℚ)
        from by push_cast; ring]
    rw [Int.floor_sub_int]
  rw [hfloor, hq, ← Int.natCast_floor_eq_floor hs]
  have h3 := Nat.div_add_mod (⌊s⌋₊) d
  omega

/-- Claim C6: for every nonnegative seconds value the SRT timestamp formatter
produces `HH:MM:SS,mmm` with zero-padded 2-digit hour/minute/second components
and a zero-padded 3-digit millisecond component, each obtained by truncation
toward zero (of the whole-second count `⌊s⌋₊` and whole-millisecond count
`⌊1000·s⌋₊`), not rounding; and a 0.0–2.5 second `SPEAKER_00` "Hello" segment
renders as the exact SRT block `1`, `00:00:00,000 --> 00:00:02,500`,
`[SPEAKER_00] Hello`, blank line. -/
theorem srt_timestamp_truncates_components (s : ℚ) (hs : 0 ≤ s) :
    (_format_timestamp_srt s
      = pyFormat0d 2 ((⌊s⌋₊ / 3600 : ℕ) : ℤ) ++ ":"
        ++ pyFormat0d 2 ((⌊s⌋₊ / 60 % 60 : ℕ) : ℤ) ++ ":"
        ++ pyFormat0d 2 ((⌊s⌋₊ % 60 : ℕ) : ℤ) ++ ","
        ++ pyFormat0d 3 ((⌊1000 * s⌋₊ % 1000 : ℕ) : ℤ))
  ∧ format_srt
      [{ speaker := "SPEAKER_00", start := 0, «end» := 5/2, text := "Hello" }]
      = "1\n00:00:00,000 --> 00:00:02,500\n[SPEAKER_00] Hello\n" := by
  constructor
  · have h3600 := pymod_nonneg_floor s 3600 hs (by norm_num)
    have h60 := pymod_nonneg_floor s 60 hs (by norm_num)
    have h1 := pymod_nonneg_floor s 1 hs (by norm_num)
    simp only [Nat.cast_ofNat] at h3600 h60
    simp only [Nat.cast_one] at h1
    have hq3600 : ⌊s / (3600:ℚ)⌋ = ((⌊s⌋₊ / 3600 : ℕ) : ℤ) := by
      rw [← Int.natCast_floor_eq_floor (show (0:ℚ) ≤ s / 3600 from by positivity)]
      rw [show (3600:ℚ) = ((3600:ℕ):ℚ) from by norm_num, Nat.floor_div_nat]
    have hminfl : ⌊pymod s 3600⌋₊ = ⌊s⌋₊ % 3600 := by
      rw [← Int.floor_toNat, h3600.2]
      exact Int.toNat_natCast _
    have hmin : ⌊(pymod s 3600) / (60:ℚ)⌋ = (((⌊s⌋₊ % 3600) / 60 : ℕ) : ℤ) := by
      rw [← Int.natCast_floor_eq_floor
            (show (0:ℚ) ≤ pymod s 3600 / 60 from by
              have := h3600.1
              positivity)]
      rw [show (60:ℚ) = ((60:ℕ):ℚ) from by norm_num, Nat.floor_div_nat, hminfl]
    have hsecs : pyint (pymod s 60) = ((⌊s⌋₊ % 60 : ℕ) : ℤ) := by
      rw [pyint, if_pos h60.1, h60.2]
    have hmillis : pyint ((pymod s 1) * 1000) = ((⌊1000 * s⌋₊ % 1000 : ℕ) : ℤ) := by
      have hpm1 : pymod s 1 = s - (⌊s⌋ : ℚ) := by
        rw [pymod]
        simp
      have hfl : ⌊(pymod s 1) * 1000⌋ = ⌊1000 * s⌋ - 1000 * ⌊s⌋ := by
        rw [hpm1, sub_mul, mul_comm s 1000]
        rw [show ((⌊s⌋:ℚ) * 1000) = ((1000 * ⌊s⌋ : ℤ) : ℚ) from by push_cast; ring]
        rw [Int.floor_sub_int]
      have hms_div : (⌊1000 * s⌋₊ / 1000 : ℕ) = ⌊s⌋₊ := by
        have h4 : (1000:ℚ) * s / ((1000:ℕ):ℚ) = s := by
          rw [show ((1000:ℕ):ℚ) = (1000:ℚ) from by norm_num]
          rw [mul_comm, mul_div_assoc, div_self (by norm_num : (1000:ℚ) ≠ 0), mul_one]
        rw [← Nat.floor_div_nat (1000 * s) 1000, h4]
      have hnn : (0:ℚ) ≤ (pymod s 1) * 1000 := mul_nonneg h1.1 (by norm_num)
      rw [pyint, if_pos hnn, hfl]
      rw [← Int.natCast_floor_eq_floor hs]
      rw [← Int.natCast_floor_eq_floor (show (0:ℚ) ≤ 1000 * s from by positivity)]
      have h5 := Nat.div_add_mod (⌊1000 * s⌋₊) 1000
      omega
    simp only [_format_timestamp_srt]
    rw [pyint_intCast, pyint_intCast, hq3600, hmin, hsecs, hmillis]
    rw [show (⌊s⌋₊ % 3600) / 60 = ⌊s⌋₊ / 60 % 60 from by omega]
  · simp only [format_srt, _format_timestamp_srt, List.enum, pymod]
    norm_num [pyint]
    have hf : Int.fract ((5:ℚ) / 2) = 1 / 2 := by
      rw [Int.fract]
      norm_num
    rw [hf]
    norm_num
    decide

/-- Concrete instantiation of `srt_timestamp_truncates_components` at 2.5
seconds. -/
theorem srt_timestamp_truncates_components_witness :
    (0:ℚ) ≤ 5/2
  ∧ _format_timestamp_srt (5/2)
      = pyFormat0d 2 ((⌊(5/2:ℚ)⌋₊ / 3600 : ℕ) : ℤ) ++ ":"
        ++ pyFormat0d 2 ((⌊(5/2:ℚ)⌋₊ / 60 % 60 : ℕ) : ℤ) ++ ":"
        ++ pyFormat0d 2 ((⌊(5/2:ℚ)⌋₊ % 60 : ℕ) : ℤ) ++ ","
        ++ pyFormat0d 3 ((⌊1000 * (5/2:ℚ)⌋₊ % 1000 : ℕ) : ℤ) :=
  ⟨by norm_num, (srt_timestamp_truncates_components (5/2) (by norm_num)).1⟩

/-- `JobStatus` (src/core/models.py, lines 10-16). -/
inductive JobStatus
  | pending
  | processing
  | completed
  | failed
deriving DecidableEq, Repr

/-- `JobData` (src/core/models.py, lines 150-170), restricted to the fields
the worker and the status endpoint read or write; timestamps are abstract
naturals; the stored `result` blob is the dictionary built by `format_json`. -/
structure JobData where
  job_id : String
  status : JobStatus
  progress : ℚ := 0
  message : Option String := none
  created_at : ℕ
  completed_at : Option ℕ := none
  error : Option String := none
  language : Option String := none
  file_path : Option String := none
  result : Option JsonResult := none
deriving DecidableEq, Repr

/-- `TranscriptionResponse` (src/core/models.py, lines 111-125): status plus
result fields that are only present when completed. -/
structure TranscriptionResponse where
  job_id : String
  status : JobStatus
  progress : Option ℚ := none
  message : Option String := none
  created_at : ℕ
  completed_at : Option ℕ := none
  error : Option String := none
  duration_seconds : Option ℚ := none
  language : Option String := none
  speakers : Option (List String) := none
  segments : Option (List TranscriptSegment) := none
deriving DecidableEq, Repr

/-- `TranscriptSegment(**seg)` as pydantic validates a stored segment
dictionary in `to_full_response`: nested word dictionaries become `Word`
values (the dictionaries carry no speaker key), and an empty stored word
list stays an empty list. -/
def segmentOfDict (d : SegmentDict) : TranscriptSegment :=
  { speaker := d.speaker, start := d.start, «end» := d.«end», text := d.text,
    words := d.words.map (List.map dictToWord) }

/-- `JobData.to_full_response` (src/core/models.py, lines 183-200): result
fields are populated only when a result blob is stored AND the status is
`completed`. -/
def JobData.to_full_response (j : JobData) : TranscriptionResponse :=
  let response : TranscriptionResponse :=
    { job_id := j.job_id, status := j.status, progress := some j.progress,
      message := j.message, created_at := j.created_at,
      completed_at := j.completed_at, error := j.error }
  match j.result with
  | some r =>
      if j.status = JobStatus.completed then
        { response with
          duration_seconds := some r.duration_seconds
          language := r.language
          speakers := some r.speakers
          segments := some (r.segments.map segmentOfDict) }
      else response
  | none => response

/-- One observable action of a worker execution: a persisted job snapshot
(`save_job`), the preprocessing invocation, or the pipeline invocation. -/
inductive WorkerEv
  | save (j : JobData)
  | preprocessRun
  | pipelineRun
deriving DecidableEq, Repr

/-- The outcome of one worker execution: final store content, the ordered
action trace, and the task's own result (an error is re-raised to Celery). -/
structure WorkerRun where
  store : Option JobData
  trace : List WorkerEv
  outcome : Except String Unit
deriving Repr

/-- `process_transcription` (src/worker/tasks.py, lines 56-151), modelled over
a single job's store entry, with the two fallible collaborators
(`preprocess_audio` and `TranscriptionPipeline.process`) injected as outcomes.
The exception handler (lines 133-145) reloads the last saved snapshot, marks
it failed with the error message, saves, and re-raises; it touches neither
progress, nor `completed_at`, nor `result`. -/
def process_transcription (store : Option JobData) (now : ℕ)
    (preprocessOutcome : Except String Unit)
    (pipelineOutcome : Except String PipelineResult) : WorkerRun :=
  match store with
  | none =>
      -- `get_job` returned nothing: the job cannot be reloaded either, so
      -- nothing is saved and the error is re-raised
      { store := none, trace := [], outcome := Except.error "Job not found" }
  | some job =>
      if pyTruthyStr job.file_path then
        let j1 : JobData :=
          { job with
            status := JobStatus.processing
            progress := 0
            message := some "Processing started" }
        let j2 : JobData :=
          { j1 with
            progress := 10
            message := some "Preprocessing audio" }
        match preprocessOutcome with
        | Except.error e =>
            let jf : JobData :=
              { j2 with
                status := JobStatus.failed
                error := some e
                message := some "Transcription failed" }
            { store := some jf
              trace := [WorkerEv.save j1, WorkerEv.save j2, WorkerEv.preprocessRun,
                        WorkerEv.save jf]
              outcome := Except.error e }
        | Except.ok _ =>
            let j3 : JobData :=
              { j2 with
                progress := 20
                message := some "Running diarization and transcription" }
            match pipelineOutcome with
            | Except.error e =>
                let jf : JobData :=
                  { j3 with
                    status := JobStatus.failed
                    error := some e
                    message := some "Transcription failed" }
                { store := some jf
                  trace := [WorkerEv.save j1, WorkerEv.save j2,
                            WorkerEv.preprocessRun, WorkerEv.save j3,
                            WorkerEv.pipelineRun, WorkerEv.save jf]
                  outcome := Except.error e }
            | Except.ok result =>
                let j4 : JobData :=
                  { j3 with
                    progress := 90
                    message := some "Finalizing results" }
                let result_data := format_json result.segments
                    result.duration_seconds result.language result.speakers
                let j5 : JobData :=
                  { j4 with
                    status := JobStatus.completed
                    progress := 100
                    message := some "Transcription completed"
                    completed_at := some now
                    result := some result_data }
                { store := some j5
                  trace := [WorkerEv.save j1, WorkerEv.save j2,
                            WorkerEv.preprocessRun, WorkerEv.save j3,
                            WorkerEv.pipelineRun, WorkerEv.save j4,
                            WorkerEv.save j5]
                  outcome := Except.ok () }
      else
        -- "has no file path" is raised before any state transition; the
        -- handler reloads the unmodified job and marks it failed
        let e := "Job " ++ job.job_id ++ " has no file path"
        let jf : JobData :=
          { job with
            status := JobStatus.failed
            error := some e
            message := some "Transcription failed" }
        { store := some jf, trace := [WorkerEv.save jf],
          outcome := Except.error e }

/-- A concrete stored job used to instantiate the worker theorems. -/
def sampleJob : JobData :=
  { job_id := "job-1", status := JobStatus.pending, created_at := 3,
    file_path := some "a.wav" }

/-- A concrete pipeline result used to instantiate the worker theorems. -/
def sampleResult : PipelineResult :=
  { text := "Hello", language := some "en", duration_seconds := 1,
    speakers := ["SPEAKER_00"],
    segments := [{ speaker := "SPEAKER_00", start := 0, «end» := 1,
                   text := "Hello" }],
    words := [] }

/-- Claim C7: on any exception during a worker execution the job is reloaded
and stored as `failed` with the error message recorded, no result stored and
`completed_at` unset, and the status API (`to_full_response`) returns no
result fields for it.  The first conjunct injects the failure at the pipeline
stage, the second at the preprocessing stage; the third shows that no failed
job, however stored, exposes result fields. -/
theorem worker_failure_marks_failed_no_results (job : JobData) (now : ℕ)
    (e : String) (po : Except String PipelineResult)
    (hpath : pyTruthyStr job.file_path = true)
    (hres : job.result = none) (hca : job.completed_at = none) :
    (∃ jf : JobData,
        (process_transcription (some job) now (Except.ok ())
            (Except.error e)).store = some jf
      ∧ (process_transcription (some job) now (Except.ok ())
            (Except.error e)).outcome = Except.error e
      ∧ jf.status = JobStatus.failed ∧ jf.error = some e
      ∧ jf.result = none ∧ jf.completed_at = none
      ∧ jf.to_full_response.duration_seconds = none
      ∧ jf.to_full_response.language = none
      ∧ jf.to_full_response.speakers = none
      ∧ jf.to_full_response.segments = none)
  ∧ (∃ jf : JobData,
        (process_transcription (some job) now (Except.error e) po).store
          = some jf
      ∧ (process_transcription (some job) now (Except.error e) po).outcome
          = Except.error e
      ∧ jf.status = JobStatus.failed ∧ jf.error = some e
      ∧ jf.result = none ∧ jf.completed_at = none
      ∧ jf.to_full_response.segments = none)
  ∧ (∀ jx : JobData, jx.status = JobStatus.failed →
        jx.to_full_response.duration_seconds = none
      ∧ jx.to_full_response.speakers = none
      ∧ jx.to_full_response.segments = none) := by
  refine ⟨?_, ?_, ?_⟩
  · refine ⟨{ job with
        status := JobStatus.failed
        progress := 20
        message := some "Transcription failed"
        error := some e }, ?_, ?_, rfl, rfl, hres, hca, ?_, ?_, ?_, ?_⟩
    · simp [process_transcription, hpath]
    · simp [process_transcription, hpath]
    all_goals simp [JobData.to_full_response, hres]
  · refine ⟨{ job with
        status := JobStatus.failed
        progress := 10
        message := some "Transcription failed"
        error := some e }, ?_, ?_, rfl, rfl, hres, hca, ?_⟩
    · simp [process_transcription, hpath]
    · simp [process_transcription, hpath]
    · simp [JobData.to_full_response, hres]
  · intro jx hst
    cases hjr : jx.result with
    | none => simp [JobData.to_full_response, hjr]
    | some r => simp [JobData.to_full_response, hjr, hst]

/-- Concrete instantiation of `worker_failure_marks_failed_no_results` at a
stored pending job with a pipeline failure. -/
theorem worker_failure_marks_failed_no_results_witness :
    pyTruthyStr sampleJob.file_path = true
  ∧ sampleJob.result = none
  ∧ ∃ jf : JobData,
      (process_transcription (some sampleJob) 7 (Except.ok ())
          (Except.error "boom")).store = some jf
      ∧ jf.status = JobStatus.failed ∧ jf.error = some "boom"
      ∧ jf.result = none ∧ jf.to_full_response.segments = none := by
  refine ⟨by decide, rfl, ?_⟩
  obtain ⟨⟨jf, h1, _, h3, h4, h5, _, _, _, _, h9⟩, _, _⟩ :=
    worker_failure_marks_failed_no_results sampleJob 7 "boom"
      (Except.ok sampleResult) (by decide) rfl rfl
  exact ⟨jf, h1, h3, h4, h5, h9⟩

/-- The shape of a worker event: a persisted snapshot's progress value, the
preprocessing invocation, or the pipeline invocation. -/
inductive EvShape
  | write (p : ℚ)
  | preprocess
  | pipeline
deriving DecidableEq, Repr

/-- Shape of one worker event. -/
def shapeOf : WorkerEv → EvShape
  | WorkerEv.save j => EvShape.write j.progress
  | WorkerEv.preprocessRun => EvShape.preprocess
  | WorkerEv.pipelineRun => EvShape.pipeline

/-- The progress values persisted by a worker run, in write order. -/
def progressWrites (evs : List WorkerEv) : List ℚ :=
  evs.filterMap (fun ev =>
    match ev with
    | WorkerEv.save j => some j.progress
    | _ => none)

/-- Claim C8 counterexample: in a successful worker execution the progress-10
snapshot is persisted immediately BEFORE the preprocessing step runs, not
after it; the event trace is write 0, write 10, preprocess, write 20,
pipeline, write 90, write 100, so the first progress-10 write precedes the
preprocessing event. -/
theorem progress_ten_written_before_preprocessing :
    ((process_transcription (some sampleJob) 7 (Except.ok ())
        (Except.ok sampleResult)).trace.map shapeOf)
      = [EvShape.write 0, EvShape.write 10, EvShape.preprocess,
         EvShape.write 20, EvShape.pipeline, EvShape.write 90,
         EvShape.write 100]
  ∧ ¬ (((process_transcription (some sampleJob) 7 (Except.ok ())
        (Except.ok sampleResult)).trace.map shapeOf).indexOf EvShape.preprocess
      < ((process_transcription (some sampleJob) 7 (Except.ok ())
        (Except.ok sampleResult)).trace.map shapeOf).indexOf (EvShape.write 10)) := by
  constructor
  · decide
  · decide

/-- Claim C8 (amended): the progress values a successful worker execution
persists are exactly the fixed checkpoints 0 (entering processing), 10 (when
preprocessing starts), 20 (on entering the orchestrator), 90 (after the
orchestrator returns) and 100 (at completion), each persisted immediately,
in that order; and every worker execution, whatever the store content and
collaborator outcomes, writes progress values in non-decreasing order. -/
theorem worker_progress_checkpoints (job : JobData) (now : ℕ)
    (r : PipelineResult) (pre : Except String Unit)
    (po : Except String PipelineResult)
    (hpath : pyTruthyStr job.file_path = true) :
    ((process_transcription (some job) now (Except.ok ())
        (Except.ok r)).trace.map shapeOf
      = [EvShape.write 0, EvShape.write 10, EvShape.preprocess,
         EvShape.write 20, EvShape.pipeline, EvShape.write 90,
         EvShape.write 100])
  ∧ progressWrites (process_transcription (some job) now (Except.ok ())
        (Except.ok r)).trace = [0, 10, 20, 90, 100]
  ∧ (∀ st : Option JobData, List.Chain' (· ≤ ·)
      (progressWrites (process_transcription st now pre po).trace)) := by
  refine ⟨?_, ?_, ?_⟩
  · simp [process_transcription, hpath, shapeOf]
  · simp [process_transcription, hpath, progressWrites]
  · intro st
    cases st with
    | none => simp [process_transcription, progressWrites]
    | some j =>
        by_cases hp : pyTruthyStr j.file_path
        · cases pre with
          | error e =>
              simp [process_transcription, hp, progressWrites, List.chain'_cons]
          | ok u =>
              cases po with
              | error e =>
                  simp [process_transcription, hp, progressWrites, List.chain'_cons]
                  norm_num
              | ok r2 =>
                  simp [process_transcription, hp, progressWrites, List.chain'_cons]
                  norm_num
        · simp [process_transcription, hp, progressWrites]

/-- Concrete instantiation of `worker_progress_checkpoints` at a stored
pending job with a successful run. -/
theorem worker_progress_checkpoints_witness :
    pyTruthyStr sampleJob.file_path = true
  ∧ progressWrites (process_transcription (some sampleJob) 7 (Except.ok ())
        (Except.ok sampleResult)).trace = [0, 10, 20, 90, 100] :=
  ⟨by decide,
    (worker_progress_checkpoints sampleJob 7 sampleResult (Except.ok ())
      (Except.ok sampleResult) (by decide)).2.1⟩

/-- `SUPPORTED_FORMATS` (src/utils/audio.py, lines 14-24), listed in the
source's insertion order (the Python value is a set of extensions). -/
def SUPPORTED_FORMATS : List String :=
  [".wav", ".mp3", ".m4a", ".mp4", ".flac", ".ogg", ".webm", ".wma", ".aac"]

/-- `pathlib.PurePath(name).suffix` of a bare file name: the substring from
the last dot, provided that dot is neither the first nor the last character. -/
def pathSuffix (name : String) : String :=
  let cs := name.toList
  match ((cs.enum.filter (fun p => p.2 == '.')).getLast?).map Prod.fst with
  | none => ""
  | some i => if 0 < i ∧ i < cs.length - 1 then String.mk (cs.drop i) else ""

/-- Python `str.lower()` as applied to a file extension, character by
character. -/
def pyLower (s : String) : String := String.mk (s.toList.map Char.toLower)

/-- Side effects of the submission endpoint, in execution order. -/
inductive ApiEffect
  | fileSaved
  | fileDeleted
  | jobSaved
  | taskEnqueued
deriving DecidableEq, Repr

/-- An HTTP error raised by an endpoint. -/
structure HTTPErrorData where
  status_code : ℕ
  detail : String
deriving DecidableEq, Repr

/-- Upload-size settings (src/core/config.py) used by the endpoint. -/
structure Settings where
  max_upload_size_bytes : ℕ
  max_upload_size_mb : ℕ
deriving DecidableEq, Repr

/-- The inputs of one submission to `create_transcription`: the upload's
filename, its byte size, and the outcome of the audio-validation
collaborator on the saved file. -/
structure SubmitInput where
  filename : Option String
  content_size : ℕ
  validation : Except String Unit

/-- `create_transcription` (src/api/routes.py, lines 78-166): the extension
check runs first, but only when the filename is truthy (present and
nonempty); then the size check (before the file is written), then the file
write, then audio validation (deleting the file on failure), then job
creation and enqueueing.  Returns the endpoint outcome and the ordered list
of side effects performed. -/
def create_transcription (input : SubmitInput) (settings : Settings)
    (job_id : String) : Except HTTPErrorData String × List ApiEffect :=
  if pyTruthyStr input.filename
      ∧ pyLower (pathSuffix ((input.filename).getD "")) ∉ SUPPORTED_FORMATS then
    (Except.error
      { status_code := 400
        detail := "Unsupported file format. Supported: "
          ++ String.intercalate ", " SUPPORTED_FORMATS }, [])
  else if settings.max_upload_size_bytes < input.content_size then
    (Except.error
      { status_code := 413
        detail := "File too large. Maximum: "
          ++ toString settings.max_upload_size_mb ++ "MB" }, [])
  else
    match input.validation with
    | Except.error err =>
        (Except.error { status_code := 400, detail := err },
         [ApiEffect.fileSaved, ApiEffect.fileDeleted])
    | Except.ok _ =>
        (Except.ok job_id,
         [ApiEffect.fileSaved, ApiEffect.jobSaved, ApiEffect.taskEnqueued])

/-- Claim C9 counterexample: a submission whose filename is the empty string
has extension `""`, which is not in the supported set, yet the endpoint does
not reject it: the truthiness guard skips the extension check, a job record
is saved and a task is enqueued. -/
theorem empty_filename_skips_format_validation :
    pyLower (pathSuffix "") ∉ SUPPORTED_FORMATS
  ∧ (create_transcription
        { filename := some "", content_size := 5, validation := Except.ok () }
        { max_upload_size_bytes := 100, max_upload_size_mb := 1 } "job-9").1
      = Except.ok "job-9"
  ∧ ApiEffect.jobSaved ∈ (create_transcription
        { filename := some "", content_size := 5, validation := Except.ok () }
        { max_upload_size_bytes := 100, max_upload_size_mb := 1 } "job-9").2
  ∧ ApiEffect.taskEnqueued ∈ (create_transcription
        { filename := some "", content_size := 5, validation := Except.ok () }
        { max_upload_size_bytes := 100, max_upload_size_mb := 1 } "job-9").2 := by
  refine ⟨by decide, rfl, by decide, by decide⟩

/-- Claim C9 (amended): every submission with a truthy (present, nonempty)
filename whose extension is not in the supported-format set is rejected with
a 400 client error whose message names the supported formats, and no side
effect is performed before the rejection: no file is written, no job record
is created, and nothing is enqueued. -/
theorem unsupported_extension_rejected_before_job_creation
    (input : SubmitInput) (settings : Settings) (job_id : String)
    (hname : pyTruthyStr input.filename = true)
    (hext : pyLower (pathSuffix ((input.filename).getD "")) ∉ SUPPORTED_FORMATS) :
    (create_transcription input settings job_id).1
      = Except.error
          { status_code := 400
            detail := "Unsupported file format. Supported: "
              ++ String.intercalate ", " SUPPORTED_FORMATS }
  ∧ (create_transcription input settings job_id).2 = [] := by
  constructor <;> simp [create_transcription, hname, hext]

/-- Concrete instantiation of
`unsupported_extension_rejected_before_job_creation` at a `.txt` upload. -/
theorem unsupported_extension_rejected_witness :
    pyTruthyStr (some "notes.txt") = true
  ∧ pyLower (pathSuffix "notes.txt") ∉ SUPPORTED_FORMATS
  ∧ (create_transcription
        { filename := some "notes.txt", content_size := 5,
          validation := Except.ok () }
        { max_upload_size_bytes := 100, max_upload_size_mb := 1 } "job-7").2
      = [] :=
  ⟨by decide, by decide,
    (unsupported_extension_rejected_before_job_creation
        { filename := some "notes.txt", content_size := 5,
          validation := Except.ok () }
        { max_upload_size_bytes := 100, max_upload_size_mb := 1 } "job-7"
        (by decide) (by decide)).2⟩

/-- Concrete instantiation of `merge_one_segment_per_run`: the empty word
list merges to the empty segment list. -/
theorem merge_one_segment_per_run_witness :
    merge_words_into_segments [] = [] :=
  (merge_one_segment_per_run []).1

/-- Concrete instantiation of `pipeline_error_policy_asymmetry`: a
transcription failure propagates out of the pipeline. -/
theorem pipeline_error_policy_asymmetry_witness :
    TranscriptionPipeline.process 1 true (Except.ok [])
        (Except.error "whisper broke") = Except.error "whisper broke" :=
  (pipeline_error_policy_asymmetry 1 "diar broke"
    { text := "", language := none, words := [] } "whisper broke" true
    (Except.ok [])).2

/-- Concrete instantiation of `format_json_parse_round_trip` on a one-segment
list. -/
theorem format_json_parse_round_trip_witness :
    ((format_json [{ speaker := "SPEAKER_00", start := 0, «end» := 1, text := "hi" }]
        1 (some "en") ["SPEAKER_00"]).segments.map parseSegment).map
        (fun s => (s.speaker, s.start, s.«end», s.text))
      = [({ speaker := "SPEAKER_00", start := 0, «end» := 1, text := "hi" } : TranscriptSegment)].map
        (fun s => (s.speaker, s.start, s.«end», s.text)) :=
  format_json_parse_round_trip
    [{ speaker := "SPEAKER_00", start := 0, «end» := 1, text := "hi" }]
    1 (some "en") ["SPEAKER_00"]

/-- Concrete instantiation of `format_json_words_null_iff` at a segment with
an empty word list. -/
theorem format_json_words_null_iff_witness :
    (segmentToDict { speaker := "S", start := 0, «end» := 1, text := "t", words := some [] }).words = none
      ↔ (({ speaker := "S", start := 0, «end» := 1, text := "t", words := some [] } : TranscriptSegment).words = none
        ∨ ({ speaker := "S", start := 0, «end» := 1, text := "t", words := some [] } : TranscriptSegment).words = some []) :=
  (format_json_words_null_iff
    { speaker := "S", start := 0, «end» := 1, text := "t", words := some [] }).1
